import Mathlib

/-!
Shallow embedding of the Coinglass WebSocket client
(`src/coinglass_api_v3/clients/websocket_client.py`,
class `CoinglassWebSocketClient`).

The client's mutable attributes become fields of `ClientState`.  Python
dicts (`subscribed_channels`, `handlers`) are modelled as association
lists in insertion order, matching dict iteration order; handlers are
compared by reference in Python, so they are modelled as opaque
identifiers (`HandlerId`).  Channel payloads passed to handlers are
opaque JSON values, modelled abstractly.  Each method returns the new
state together with the wire messages it sent and the log events it
emitted, making the side effects of the Python code explicit data.
-/

namespace CoinglassWS

/-- Handlers are Python callables compared by reference (`handler not in
self.handlers[channel]`, `handlers[channel].remove(handler)`); an opaque
identifier models the reference. -/
abbrev HandlerId := Nat

/-- The inner `data` payload of a channel message is opaque JSON passed
through to handlers unchanged; its structure never matters. -/
abbrev Payload := Nat

/-- A handler invocation either returns normally or raises an exception
(carrying its message).  The behaviour of each handler reference is an
environment parameter of the dispatcher. -/
abbrev HandlerEnv := HandlerId → Payload → Except String Unit

/-- Wire messages the client sends (`self.ws.send(json.dumps(...))`). -/
inductive WireMsg where
  | subscribeMsg (args : List String)
  | unsubscribeMsg (args : List String)
  | pingMsg
  | authMsg (apiKey : String)
  deriving Repr, DecidableEq

/-- Log events emitted by the client methods (`logger.*` calls that the
claims refer to). -/
inductive LogEvent where
  | sendError
  | notConnectedWarning
  | pongReceived
  | authOk
  | authFailed
  | handlerError (channel : String) (h : HandlerId)
  | noHandlerForChannel (channel : String)
  | serverErrorEvent
  | parseError
  | reconnectAborted
  | maxReconnectReached
  | closedIntentionally
  deriving Repr, DecidableEq

/-- Association list keyed by strings, in insertion order: the model of
a Python dict.  `alistFind` is `d.get(k)`. -/
def alistFind {α : Type} : List (String × α) → String → Option α
  | [], _ => none
  | (k, v) :: rest, key => if k = key then some v else alistFind rest key

/-- `k in d` for a Python dict. -/
def alistMem {α : Type} (m : List (String × α)) (k : String) : Bool :=
  (alistFind m k).isSome

/-- `d[k]` with a default (the model only uses it where the key exists). -/
def alistGetD {α : Type} (m : List (String × α)) (k : String) (d : α) : α :=
  (alistFind m k).getD d

/-- `d[k] = v`: updates the existing entry in place, otherwise appends
(new dict keys go at the end of the iteration order). -/
def alistSet {α : Type} : List (String × α) → String → α → List (String × α)
  | [], k, v => [(k, v)]
  | (k', v') :: rest, k, v =>
      if k' = k then (k, v) :: rest else (k', v') :: alistSet rest k v

/-- `del d[k]`: removes the first entry with the key (dict keys are
unique, so the only one). -/
def alistErase {α : Type} : List (String × α) → String → List (String × α)
  | [], _ => []
  | (k', v') :: rest, k => if k' = k then rest else (k', v') :: alistErase rest k

/-- The keys of a dict, in iteration order. -/
def alistKeys {α : Type} (m : List (String × α)) : List String :=
  m.map Prod.fst

/-- The client's mutable attributes set in `__init__`.  `ws : Bool`
records whether `self.ws` currently holds a `WebSocketApp` instance
(`True`) or is `None` (`False`). -/
structure ClientState where
  api_key : String
  ws : Bool
  is_connected : Bool
  is_authenticated : Bool
  subscribed_channels : List (String × List String)
  handlers : List (String × List HandlerId)
  reconnect_interval : Nat
  max_reconnect_attempts : Nat
  reconnect_attempts : Nat
  running : Bool
  deriving Repr, DecidableEq

/-- The state produced by `__init__(api_key)`: disconnected, empty
registries, `reconnect_interval = 5`, `max_reconnect_attempts = 5`. -/
def initState (apiKey : String) : ClientState :=
  { api_key := apiKey
    ws := false
    is_connected := false
    is_authenticated := false
    subscribed_channels := []
    handlers := []
    reconnect_interval := 5
    max_reconnect_attempts := 5
    reconnect_attempts := 0
    running := false }

/-- Body of `_send_message` with the instantaneous values of `self.ws`
and `self.is_connected`, and with `raises` recording whether the
underlying `ws.send` raises on this call.  The `try/except` around
`ws.send` catches the exception and logs it, so a send failure never
propagates to the caller; without the guard a warning is logged and
nothing is sent. -/
def send_message_now (ws connected raises : Bool) (m : WireMsg) :
    List WireMsg × List LogEvent :=
  if ws && connected then
    if raises then ([], [LogEvent.sendError]) else ([m], [])
  else
    ([], [LogEvent.notConnectedWarning])

/-- `_send_message(self, message)` under a transport whose `send` call
returns normally; the registry-level operations are analysed under this
environment, while the heartbeat loop below threads an explicit
per-iteration failure trace through `send_message_now`. -/
def send_message (s : ClientState) (m : WireMsg) : List WireMsg :=
  (send_message_now s.ws s.is_connected false m).1

/-- `[f"{channel}:{param}" for param in params]`. -/
def subArgs (channel : String) (params : List String) : List String :=
  params.map (fun p => channel ++ ":" ++ p)

/-- The loop of `_resubscribe_channels` over
`list(self.subscribed_channels.items())`: one subscribe message per
channel whose (copied) parameter list is non-empty. -/
def resubscribe_msgs (s : ClientState) :
    List (String × List String) → List WireMsg
  | [] => []
  | (c, ps) :: rest =>
      (if ps.isEmpty then []
       else send_message s (WireMsg.subscribeMsg (subArgs c ps)))
        ++ resubscribe_msgs s rest

/-- `_resubscribe_channels(self)`: aborts unless connected and
authenticated, otherwise replays every channel (read-only on the
registries). -/
def resubscribe_channels (s : ClientState) : List WireMsg :=
  if s.is_connected && s.is_authenticated then
    resubscribe_msgs s s.subscribed_channels
  else []

/-- The `for p in params` loop of `subscribe`: appends each parameter
not yet registered to the channel's (mutating) list and collects it
into `new_params_to_subscribe`.  Returns the final registered list and
the collected new parameters, both in order. -/
def addNewParams (registered : List String) :
    List String → List String × List String
  | [] => (registered, [])
  | p :: rest =>
      if p ∈ registered then addNewParams registered rest
      else
        let r := addNewParams (registered ++ [p]) rest
        (r.1, p :: r.2)

/-- `subscribe(self, channel, params, handler)`.  Returns the new state
and the wire messages sent.  Mirrors the source order: empty-argument
guard, handler registration, registry initialisation, delta
computation, conditional wire send of the delta only. -/
def subscribe (s : ClientState) (channel : String) (params : List String)
    (handler : HandlerId) : ClientState × List WireMsg :=
  if channel = "" ∨ params = [] then (s, [])
  else
    let handlers1 :=
      if alistMem s.handlers channel then s.handlers
      else alistSet s.handlers channel []
    let hlist := alistGetD handlers1 channel []
    let handlers2 :=
      if handler ∈ hlist then handlers1
      else alistSet handlers1 channel (hlist ++ [handler])
    let subs1 :=
      if alistMem s.subscribed_channels channel then s.subscribed_channels
      else alistSet s.subscribed_channels channel []
    let reg := alistGetD subs1 channel []
    let r := addNewParams reg params
    let subs2 := alistSet subs1 channel r.1
    let s1 := { s with handlers := handlers2, subscribed_channels := subs2 }
    let msgs :=
      if r.2 ≠ [] then
        if s.is_connected && s.is_authenticated then
          send_message s1 (WireMsg.subscribeMsg (subArgs channel r.2))
        else []
      else []
    (s1, msgs)

/-- The `for p in params` loop of `unsubscribe`: splits off the
parameters found in `remaining_params` (each removed by
`list.remove`, i.e. first occurrence) from those left registered.
Returns `(params_to_unsubscribe, remaining_params)`. -/
def splitParams (remaining : List String) :
    List String → List String × List String
  | [] => ([], remaining)
  | p :: rest =>
      if p ∈ remaining then
        let r := splitParams (remaining.erase p) rest
        (p :: r.1, r.2)
      else splitParams remaining rest

/-- `unsubscribe(self, channel, params, handler=None)`.  Mirrors the
source order: unknown-channel guard, intersection computation, early
return when nothing matches, registry update (entry deleted when it
empties), conditional wire send, then handler removal. -/
def unsubscribe (s : ClientState) (channel : String) (params : List String)
    (handler : Option HandlerId) : ClientState × List WireMsg :=
  if ¬ alistMem s.subscribed_channels channel then (s, [])
  else
    let reg := alistGetD s.subscribed_channels channel []
    let r := splitParams reg params
    if r.1 = [] then (s, [])
    else
      let subs2 :=
        if r.2 = [] then alistErase s.subscribed_channels channel
        else alistSet s.subscribed_channels channel r.2
      let msgs :=
        if s.is_connected && s.is_authenticated then
          send_message s (WireMsg.unsubscribeMsg (subArgs channel r.1))
        else []
      let handlers2 :=
        if alistMem s.handlers channel then
          match handler with
          | some hid =>
              let hl := alistGetD s.handlers channel []
              if hid ∈ hl then alistSet s.handlers channel (hl.erase hid)
              else s.handlers
          | none =>
              if r.2 = [] then alistErase s.handlers channel else s.handlers
        else s.handlers
      ({ s with subscribed_channels := subs2, handlers := handlers2 }, msgs)

/-- The classification `_on_message` performs on the parsed JSON:
`{"op": "pong"}`, `{"op": "auth", "success": ...}` (with `success`
defaulting to `False`), a dict with both `"channel"` and `"data"`
keys, `{"event": "error", ...}`, or anything else (including text that
fails to parse). -/
inductive WsData where
  | pong
  | authResult (success : Bool)
  | channelData (channel : String) (payload : Payload)
  | errorEvent
  | malformed
  deriving Repr, DecidableEq

/-- Everything observable about one `_on_message` call: the state it
leaves, the wire messages it sent, the handler invocations it made
(handler reference paired with the payload passed), and the log events
it emitted. -/
structure MsgOutcome where
  state : ClientState
  sent : List WireMsg
  invocations : List (HandlerId × Payload)
  logs : List LogEvent
  deriving Repr

/-- The `for handler in self.handlers[channel]` loop: every handler is
called with the payload; a raising handler's exception is caught by the
inner `try/except`, logged, and the loop continues with the next
handler. -/
def run_handlers (env : HandlerEnv) (channel : String) (payload : Payload) :
    List HandlerId → List (HandlerId × Payload) × List LogEvent
  | [] => ([], [])
  | h :: rest =>
      let r := run_handlers env channel payload rest
      match env h payload with
      | Except.ok _ => ((h, payload) :: r.1, r.2)
      | Except.error _ => ((h, payload) :: r.1, LogEvent.handlerError channel h :: r.2)

/-- `_on_message(self, ws, message)` after JSON parsing and
classification.  On a successful auth result it sets
`is_authenticated` and replays the registries via
`_resubscribe_channels`; on failure it sets the flag to `False`, logs,
and returns.  Channel data is dispatched to the channel's handlers. -/
def on_message (env : HandlerEnv) (s : ClientState) (d : WsData) : MsgOutcome :=
  match d with
  | WsData.pong => ⟨s, [], [], [LogEvent.pongReceived]⟩
  | WsData.authResult success =>
      let s1 := { s with is_authenticated := success }
      if success then
        ⟨s1, resubscribe_channels s1, [], [LogEvent.authOk]⟩
      else
        ⟨s1, [], [], [LogEvent.authFailed]⟩
  | WsData.channelData c payload =>
      match alistFind s.handlers c with
      | some hs =>
          let r := run_handlers env c payload hs
          ⟨s, [], r.1, r.2⟩
      | none => ⟨s, [], [], [LogEvent.noHandlerForChannel c]⟩
  | WsData.errorEvent => ⟨s, [], [], [LogEvent.serverErrorEvent]⟩
  | WsData.malformed => ⟨s, [], [], [LogEvent.parseError]⟩

/-- A sequence of incoming messages processed by `_on_message`,
threading the state and concatenating the handler invocations. -/
def process_messages (env : HandlerEnv) (s : ClientState) :
    List WsData → ClientState × List (HandlerId × Payload)
  | [] => (s, [])
  | d :: rest =>
      let o := on_message env s d
      let r := process_messages env o.state rest
      (r.1, o.invocations ++ r.2)

/-- `_on_open(self, ws)`: marks connected, resets the reconnect
counter, sends the auth message (the ping thread it also starts is the
loop modelled by `send_ping_loop`). -/
def on_open (s : ClientState) : ClientState × List WireMsg :=
  let s1 := { s with is_connected := true, reconnect_attempts := 0 }
  (s1, send_message s1 (WireMsg.authMsg s1.api_key))

/-- The shared mutable state as another thread may have left it by the
time `time.sleep(wait_time)` in `_attempt_reconnect` returns:
`self.running`, whether `self.ws` is still set, and whether
`self._ws_thread` is set to a live thread (the guard
`_start_ws_thread` tests).  A concurrent `disconnect()` sets `running`
to `False` and both handles to `None`; if nothing intervened the
values are unchanged. -/
structure PostSleepEnv where
  running : Bool
  ws : Bool
  ws_thread_alive : Bool
  deriving Repr, DecidableEq

/-- Everything observable about one `_attempt_reconnect` (or
`_on_close`) call: the resulting state, whether a new `WebSocketApp`
was constructed and started (`_start_ws_thread` passed its guard),
the backoff delay slept (if any), and log events. -/
structure ReconnectOutcome where
  state : ClientState
  opened : Bool
  waited : Option Nat
  logs : List LogEvent
  deriving Repr, DecidableEq

/-- `_start_ws_thread(self)`: if `self._ws_thread` exists and is alive
it warns and returns without opening; otherwise it constructs a new
`WebSocketApp` (setting `self.ws`) and starts `run_forever` on a new
thread. -/
def start_ws_thread (alive : Bool) (s : ClientState) : ClientState × Bool :=
  if alive then (s, false)
  else ({ s with ws := true }, true)

/-- `_attempt_reconnect(self)`.  `self.running` is tested once, at
entry, before the backoff sleep; after `time.sleep(wait_time)` the
code proceeds unconditionally — closing any stale `self.ws` handle and
calling `_start_ws_thread` — with the shared fields now holding the
`post`-sleep values.  When the counter has reached the maximum it sets
`running` to `False` and opens nothing. -/
def attempt_reconnect (s : ClientState) (post : PostSleepEnv) : ReconnectOutcome :=
  if ¬ s.running then
    ⟨s, false, none, [LogEvent.reconnectAborted]⟩
  else if s.reconnect_attempts < s.max_reconnect_attempts then
    let attempt := s.reconnect_attempts + 1
    let wait := s.reconnect_interval * 2 ^ (attempt - 1)
    let s1 := { s with reconnect_attempts := attempt,
                       running := post.running, ws := post.ws }
    let r := start_ws_thread post.ws_thread_alive s1
    ⟨r.1, r.2, some wait, []⟩
  else
    ⟨{ s with running := false }, false, none, [LogEvent.maxReconnectReached]⟩

/-- `_on_close(self, ws, code, msg)`: clears the connection flags, then
reconnects only while `running` is still `True`. -/
def on_close (s : ClientState) (post : PostSleepEnv) : ReconnectOutcome :=
  let s1 := { s with is_connected := false, is_authenticated := false }
  if s1.running then attempt_reconnect s1 post
  else ⟨s1, false, none, [LogEvent.closedIntentionally]⟩

/-- `disconnect(self)`: a no-op warning when not running; otherwise
clears `running` first, closes and drops the transport handle and
thread references, and clears the connection flags.  The registries
are untouched. -/
def disconnect (s : ClientState) : ClientState :=
  if ¬ s.running then s
  else { s with running := false, ws := false,
                is_connected := false, is_authenticated := false }

/-- A sequence of unexpected Transport closes: each one runs
`_on_close` (with its own concurrent environment) and the number of
new `WebSocketApp` opens is counted. -/
def countOpens (s : ClientState) : List PostSleepEnv → ClientState × Nat
  | [] => (s, 0)
  | post :: rest =>
      let o := on_close s post
      let r := countOpens o.state rest
      (r.1, (if o.opened then 1 else 0) + r.2)

/-- The per-iteration concurrent environment of the `_send_ping` loop:
the values the shared flags hold when iteration `i` reads them, and
whether the transport's `send` raises at iteration `i`. -/
structure PingEnv where
  running : Nat → Bool
  connected : Nat → Bool
  ws : Nat → Bool
  sendRaises : Nat → Bool

/-- `_send_ping(self)`: loops while `self.running and
self.is_connected`, each iteration calling `_send_message` with the
ping message and sleeping.  A transport `send` failure is caught and
logged inside `_send_message`, so it never reaches the loop's own
`try/except`; the only statements the outer handler guards
(`logger.debug`, `time.sleep`) do not raise, so its `break` is
unreachable and the loop proceeds to the next iteration regardless of
send failures.  `fuel` bounds the unrolling; the result lists each
iteration's `(sent, logs)`. -/
def send_ping_loop (env : PingEnv) : Nat → Nat → List (List WireMsg × List LogEvent)
  | _, 0 => []
  | i, fuel + 1 =>
      if env.running i && env.connected i then
        send_message_now (env.ws i) (env.connected i) (env.sendRaises i) WireMsg.pingMsg
          :: send_ping_loop env (i + 1) fuel
      else []

/-! Dictionary-model lemmas. -/

theorem alistFind_set_self {α : Type} (m : List (String × α)) (k : String) (v : α) :
    alistFind (alistSet m k v) k = some v := by
  induction m with
  | nil => simp [alistSet, alistFind]
  | cons kv rest ih =>
      obtain ⟨a, b⟩ := kv
      by_cases h : a = k
      · simp [alistSet, h, alistFind]
      · simp [alistSet, h, alistFind, ih]

theorem alistFind_set_ne {α : Type} (m : List (String × α)) (k k' : String) (v : α)
    (h : k' ≠ k) : alistFind (alistSet m k v) k' = alistFind m k' := by
  induction m with
  | nil => simp [alistSet, alistFind, Ne.symm h]
  | cons kv rest ih =>
      obtain ⟨a, b⟩ := kv
      by_cases ha : a = k
      · subst ha
        simp [alistSet, alistFind, Ne.symm h]
      · simp [alistSet, ha, alistFind, ih]

theorem alistSet_of_find_eq {α : Type} (m : List (String × α)) (k : String) (v : α)
    (h : alistFind m k = some v) : alistSet m k v = m := by
  induction m with
  | nil => simp [alistFind] at h
  | cons kv rest ih =>
      obtain ⟨a, b⟩ := kv
      by_cases ha : a = k
      · subst ha
        simp [alistFind] at h
        simp [alistSet, h]
      · simp only [alistFind, if_neg ha] at h
        simp [alistSet, ha, ih h]

theorem alistSet_set {α : Type} (m : List (String × α)) (k : String) (v w : α) :
    alistSet (alistSet m k v) k w = alistSet m k w := by
  induction m with
  | nil => simp [alistSet]
  | cons kv rest ih =>
      obtain ⟨a, b⟩ := kv
      by_cases ha : a = k
      · simp [alistSet, ha]
      · simp [alistSet, ha, ih]

theorem alistFind_erase_ne {α : Type} (m : List (String × α)) (k k' : String)
    (h : k' ≠ k) : alistFind (alistErase m k) k' = alistFind m k' := by
  induction m with
  | nil => simp [alistErase]
  | cons kv rest ih =>
      obtain ⟨a, b⟩ := kv
      by_cases ha : a = k
      · subst ha
        simp [alistErase, alistFind, Ne.symm h]
      · simp [alistErase, ha, alistFind, ih]

theorem alistFind_eq_none_of_not_mem_keys {α : Type} (m : List (String × α))
    (k : String) (h : k ∉ alistKeys m) : alistFind m k = none := by
  induction m with
  | nil => rfl
  | cons kv rest ih =>
      obtain ⟨a, b⟩ := kv
      simp only [alistKeys, List.map_cons, List.mem_cons, not_or] at h
      simp [alistFind, Ne.symm h.1, ih (by simpa [alistKeys] using h.2)]

theorem alistFind_erase_self {α : Type} (m : List (String × α)) (k : String)
    (hnd : (alistKeys m).Nodup) : alistFind (alistErase m k) k = none := by
  induction m with
  | nil => rfl
  | cons kv rest ih =>
      obtain ⟨a, b⟩ := kv
      simp only [alistKeys, List.map_cons, List.nodup_cons] at hnd
      by_cases ha : a = k
      · subst ha
        simp only [alistErase, if_pos rfl]
        exact alistFind_eq_none_of_not_mem_keys rest a (by simpa [alistKeys] using hnd.1)
      · simp [alistErase, ha, alistFind, ih hnd.2]

/-! Lemmas about the `subscribe` parameter loop. -/

theorem addNewParams_fst_mono (reg ps : List String) (x : String) (hx : x ∈ reg) :
    x ∈ (addNewParams reg ps).1 := by
  induction ps generalizing reg with
  | nil => simpa [addNewParams]
  | cons p rest ih =>
      by_cases hp : p ∈ reg
      · simpa [addNewParams, hp] using ih reg hx
      · simpa [addNewParams, hp] using ih (reg ++ [p]) (List.mem_append_left _ hx)

theorem mem_addNewParams_fst (reg ps : List String) (p : String) (hp : p ∈ ps) :
    p ∈ (addNewParams reg ps).1 := by
  induction ps generalizing reg with
  | nil => cases hp
  | cons q rest ih =>
      rcases List.mem_cons.mp hp with h | h
      · subst h
        by_cases hq : p ∈ reg
        · simpa [addNewParams, hq] using addNewParams_fst_mono reg rest p hq
        · simpa [addNewParams, hq] using
            addNewParams_fst_mono (reg ++ [p]) rest p (List.mem_append_right _ (List.mem_singleton_self p))
      · by_cases hq : q ∈ reg
        · simpa [addNewParams, hq] using ih reg h
        · simpa [addNewParams, hq] using ih (reg ++ [q]) h

theorem addNewParams_of_subset (reg ps : List String)
    (h : ∀ p ∈ ps, p ∈ reg) : addNewParams reg ps = (reg, []) := by
  induction ps with
  | nil => rfl
  | cons p rest ih =>
      have hp : p ∈ reg := h p (List.mem_cons_self p rest)
      simp only [addNewParams, if_pos hp]
      exact ih fun q hq => h q (List.mem_cons_of_mem p hq)

/-! Lemmas about the `unsubscribe` parameter loop. -/

theorem splitParams_snd_eq_filter (ps : List String) :
    ∀ reg : List String, reg.Nodup →
      (splitParams reg ps).2 = reg.filter (fun x => decide (x ∉ ps)) := by
  induction ps with
  | nil =>
      intro reg _
      simp [splitParams]
  | cons p rest ih =>
      intro reg hnd
      by_cases hp : p ∈ reg
      · simp only [splitParams, if_pos hp]
        rw [ih (reg.erase p) (hnd.erase p), hnd.erase_eq_filter p, List.filter_filter]
        refine List.filter_congr ?_
        intro x _
        by_cases hxp : x = p <;> simp [hxp]
      · simp only [splitParams, if_neg hp]
        rw [ih reg hnd]
        refine List.filter_congr ?_
        intro x hx
        have hxp : x ≠ p := fun e => hp (e ▸ hx)
        simp [hxp]

theorem splitParams_fst_eq_filter (ps : List String) :
    ∀ reg : List String, reg.Nodup → ps.Nodup →
      (splitParams reg ps).1 = ps.filter (fun x => decide (x ∈ reg)) := by
  induction ps with
  | nil =>
      intro reg _ _
      simp [splitParams]
  | cons p rest ih =>
      intro reg hreg hps
      rw [List.nodup_cons] at hps
      by_cases hp : p ∈ reg
      · have h1 : ∀ x ∈ rest, decide (x ∈ reg.erase p) = decide (x ∈ reg) := by
          intro x hx
          have hxp : x ≠ p := fun e => hps.1 (e ▸ hx)
          simp [List.mem_erase_of_ne hxp]
        simp only [splitParams, if_pos hp, List.filter_cons]
        rw [ih (reg.erase p) (hreg.erase p) hps.2, List.filter_congr h1]
        simp [hp]
      · simp only [splitParams, if_neg hp, List.filter_cons]
        rw [ih reg hreg hps.2]
        simp [hp]

/-! Lemmas about sending and the replay loop. -/

theorem send_message_ready (s : ClientState) (m : WireMsg)
    (hw : s.ws = true) (hc : s.is_connected = true) :
    send_message s m = [m] := by
  simp [send_message, send_message_now, hw, hc]

theorem send_message_length_le_one (s : ClientState) (m : WireMsg) :
    (send_message s m).length ≤ 1 := by
  by_cases h : s.ws && s.is_connected
  · simp [send_message, send_message_now, h]
  · simp [send_message, send_message_now, h]

theorem resubscribe_msgs_eq (s : ClientState)
    (hw : s.ws = true) (hc : s.is_connected = true)
    (l : List (String × List String)) :
    resubscribe_msgs s l
      = l.filterMap (fun cp =>
          if cp.2.isEmpty then none
          else some (WireMsg.subscribeMsg (subArgs cp.1 cp.2))) := by
  induction l with
  | nil => rfl
  | cons cp rest ih =>
      obtain ⟨c, ps⟩ := cp
      by_cases hps : ps = []
      · subst hps
        simp [resubscribe_msgs, List.filterMap_cons, ih]
      · have hne : ps.isEmpty = false := by simpa [List.isEmpty_iff] using hps
        simp [resubscribe_msgs, hne, List.filterMap_cons, ih, hps,
              send_message_ready s _ hw hc]

/-! Case equations for `_attempt_reconnect` and the close/reconnect loop. -/

theorem attempt_reconnect_not_running (s : ClientState) (post : PostSleepEnv)
    (h : s.running = false) :
    attempt_reconnect s post = ⟨s, false, none, [LogEvent.reconnectAborted]⟩ := by
  simp [attempt_reconnect, h]

theorem attempt_reconnect_retry (s : ClientState) (post : PostSleepEnv)
    (hr : s.running = true)
    (hlt : s.reconnect_attempts < s.max_reconnect_attempts) :
    attempt_reconnect s post
      = { state := { s with
                       reconnect_attempts := s.reconnect_attempts + 1,
                       running := post.running,
                       ws := if post.ws_thread_alive then post.ws else true },
          opened := !post.ws_thread_alive,
          waited := some (s.reconnect_interval * 2 ^ s.reconnect_attempts),
          logs := [] } := by
  cases hpa : post.ws_thread_alive <;>
    simp [attempt_reconnect, hr, hlt, start_ws_thread, hpa]

theorem attempt_reconnect_terminal (s : ClientState) (post : PostSleepEnv)
    (hr : s.running = true)
    (hge : ¬ s.reconnect_attempts < s.max_reconnect_attempts) :
    attempt_reconnect s post
      = ⟨{ s with running := false }, false, none, [LogEvent.maxReconnectReached]⟩ := by
  simp [attempt_reconnect, hr, hge]

theorem on_close_eq (s : ClientState) (post : PostSleepEnv) :
    on_close s post
      = if s.running = true
        then attempt_reconnect
               { s with is_connected := false, is_authenticated := false } post
        else ⟨{ s with is_connected := false, is_authenticated := false },
              false, none, [LogEvent.closedIntentionally]⟩ := by
  by_cases h : s.running = true <;> simp [on_close, h]

theorem countOpens_not_running (posts : List PostSleepEnv) :
    ∀ s : ClientState, s.running = false → (countOpens s posts).2 = 0 := by
  induction posts with
  | nil => intro s _; rfl
  | cons post rest ih =>
      intro s h
      have hr : ¬ s.running = true := by simp [h]
      simp only [countOpens, on_close_eq, if_neg hr]
      simpa using ih { s with is_connected := false, is_authenticated := false } h

theorem countOpens_le (posts : List PostSleepEnv) :
    ∀ s : ClientState, s.reconnect_attempts ≤ s.max_reconnect_attempts →
      (countOpens s posts).2 + s.reconnect_attempts ≤ s.max_reconnect_attempts := by
  induction posts with
  | nil =>
      intro s h
      simpa [countOpens] using h
  | cons post rest ih =>
      intro s h
      by_cases hrun : s.running = true
      · by_cases hlt : s.reconnect_attempts < s.max_reconnect_attempts
        · have hstep := attempt_reconnect_retry
            { s with is_connected := false, is_authenticated := false } post hrun hlt
          simp only [countOpens, on_close_eq, if_pos hrun, hstep]
          by_cases hpa : post.ws_thread_alive = true
          · have hrec := ih { s with is_connected := false, is_authenticated := false,
                                     reconnect_attempts := s.reconnect_attempts + 1,
                                     running := post.running, ws := post.ws }
              (by simpa using hlt)
            simp [hpa] at hrec ⊢
            omega
          · have hpa' : post.ws_thread_alive = false := by
              revert hpa; cases post.ws_thread_alive <;> simp
            have hrec := ih { s with is_connected := false, is_authenticated := false,
                                     reconnect_attempts := s.reconnect_attempts + 1,
                                     running := post.running, ws := true }
              (by simpa using hlt)
            simp [hpa'] at hrec ⊢
            omega
        · have hstep := attempt_reconnect_terminal
            { s with is_connected := false, is_authenticated := false } post hrun hlt
          have hrec := countOpens_not_running rest
            { s with is_connected := false, is_authenticated := false, running := false }
            rfl
          simp only [countOpens, on_close_eq, if_pos hrun, hstep] at *
          simp at hrec ⊢
          omega
      · have hrun' : s.running = false := by
          revert hrun; cases s.running <;> simp
        have hrec := countOpens_not_running rest
          { s with is_connected := false, is_authenticated := false } hrun'
        simp only [countOpens, on_close_eq, if_neg hrun]
        simp at hrec ⊢
        omega

/-! Lemmas about the heartbeat loop. -/

theorem send_ping_loop_eq (env : PingEnv) :
    ∀ fuel i : Nat,
      (∀ j, j < fuel → env.running (i + j) = true ∧ env.connected (i + j) = true) →
      send_ping_loop env i fuel
        = (List.range fuel).map (fun j =>
            send_message_now (env.ws (i + j)) (env.connected (i + j))
              (env.sendRaises (i + j)) WireMsg.pingMsg) := by
  intro fuel
  induction fuel with
  | zero => intro i _; rfl
  | succ n ih =>
      intro i h
      have h0 := h 0 (Nat.succ_pos n)
      rw [Nat.add_zero] at h0
      have htail : ∀ j, j < n →
          env.running ((i + 1) + j) = true ∧ env.connected ((i + 1) + j) = true := by
        intro j hj
        have hx := h (j + 1) (by omega)
        simpa [show i + (j + 1) = (i + 1) + j by omega] using hx
      simp only [send_ping_loop, h0.1, h0.2, Bool.and_self, if_true]
      rw [ih (i + 1) htail, List.range_succ_eq_map, List.map_cons, List.map_map]
      congr 1
      · rw [Nat.add_zero, h0.2]
      · apply List.map_congr_left
        intro j _
        simp [Function.comp, show i + (j + 1) = (i + 1) + j by omega]

/-! Lemmas about the dispatcher's handler loop. -/

theorem run_handlers_spec (env : HandlerEnv) (c : String) (d : Payload) :
    ∀ hs : List HandlerId,
      (run_handlers env c d hs).1 = hs.map (fun h => (h, d))
      ∧ (run_handlers env c d hs).2
          = hs.filterMap (fun h =>
              match env h d with
              | Except.ok _ => none
              | Except.error _ => some (LogEvent.handlerError c h)) := by
  intro hs
  induction hs with
  | nil => exact ⟨rfl, rfl⟩
  | cons h rest ih =>
      cases henv : env h d with
      | ok u => simp [run_handlers, henv, List.filterMap_cons, ih.1, ih.2]
      | error e => simp [run_handlers, henv, List.filterMap_cons, ih.1, ih.2]

/-! Lemmas about `subscribe`. -/

theorem subscribe_sends_at_most_one (s : ClientState) (c : String)
    (ps : List String) (hid : HandlerId) :
    (subscribe s c ps hid).2.length ≤ 1 := by
  by_cases hguard : c = "" ∨ ps = []
  · simp [subscribe, hguard]
  · simp only [subscribe, if_neg hguard]
    split_ifs <;> first | exact send_message_length_le_one _ _ | simp

theorem subscribe_noop_of_registered (t : ClientState) (c : String)
    (ps : List String) (hid : HandlerId) (reg : List String) (hl : List HandlerId)
    (hreg : alistFind t.subscribed_channels c = some reg)
    (hall : ∀ p ∈ ps, p ∈ reg)
    (hfh : alistFind t.handlers c = some hl)
    (hhid : hid ∈ hl) :
    subscribe t c ps hid = (t, []) := by
  by_cases hguard : c = "" ∨ ps = []
  · simp [subscribe, hguard]
  · have hadd := addNewParams_of_subset reg ps hall
    simp [subscribe, hguard, alistMem, alistGetD, hreg, hfh, hhid, hadd,
          alistSet_of_find_eq _ _ _ hreg]

theorem subscribe_finds_params (s : ClientState) (c : String) (ps : List String)
    (hid : HandlerId) (hguard : ¬ (c = "" ∨ ps = [])) :
    ∃ reg, alistFind (subscribe s c ps hid).1.subscribed_channels c = some reg
      ∧ ∀ p ∈ ps, p ∈ reg := by
  refine ⟨(addNewParams
      (alistGetD
        (if alistMem s.subscribed_channels c then s.subscribed_channels
         else alistSet s.subscribed_channels c []) c []) ps).1,
    ?_, fun p hp => mem_addNewParams_fst _ ps p hp⟩
  simp only [subscribe, if_neg hguard]
  exact alistFind_set_self _ _ _

theorem subscribe_finds_handler (s : ClientState) (c : String) (ps : List String)
    (hid : HandlerId) (hguard : ¬ (c = "" ∨ ps = [])) :
    ∃ hl, alistFind (subscribe s c ps hid).1.handlers c = some hl ∧ hid ∈ hl := by
  by_cases hmh : alistMem s.handlers c = true
  · obtain ⟨hl0, hfh⟩ := Option.isSome_iff_exists.mp hmh
    by_cases hin : hid ∈ hl0
    · refine ⟨hl0, ?_, hin⟩
      simp [subscribe, hguard, alistMem, hfh, alistGetD, hin]
    · refine ⟨hl0 ++ [hid], ?_, by simp⟩
      simp [subscribe, hguard, alistMem, hfh, alistGetD, hin, alistFind_set_self]
  · have hfh : alistFind s.handlers c = none := by
      cases hfind : alistFind s.handlers c with
      | none => rfl
      | some x => exact absurd (by simp [alistMem, hfind]) hmh
    refine ⟨[hid], ?_, by simp⟩
    simp [subscribe, hguard, alistMem, hfh, alistGetD, alistFind_set_self]

/-! ## Concrete states and environments used by the verification witnesses. -/

/-- A handler environment in which every handler returns normally. -/
def okEnv : HandlerEnv := fun _ _ => Except.ok ()

/-- A handler environment in which handler 1 raises and every other
handler returns normally. -/
def boomEnv : HandlerEnv :=
  fun h _ => if h = 1 then Except.error "handler failure" else Except.ok ()

/-- A freshly constructed client that has called `connect()` (running,
counter 0) and holds a transport handle. -/
def backoffState : ClientState :=
  { initState "key" with running := true, ws := true }

/-- The post-sleep environment of a backoff sleep during which no other
thread touched the shared state. -/
def quietSleep : PostSleepEnv :=
  { running := true, ws := true, ws_thread_alive := false }

/-- A connected, authenticated client with one subscribed channel
holding two parameters and one registered handler. -/
def replayState : ClientState :=
  { initState "key" with
      ws := true, is_connected := true, is_authenticated := true, running := true,
      subscribed_channels := [("liquidation", ["BTC", "ETH"])],
      handlers := [("liquidation", [1])] }

/-- A client with two handlers registered for one channel. -/
def dispatchState : ClientState :=
  { initState "key" with handlers := [("liquidation", [1, 2])] }

/-- A heartbeat environment: the client stays running and connected with
a live transport handle, and the transport's `send` raises exactly at
iteration 0. -/
def failFirstPing : PingEnv :=
  { running := fun _ => true, connected := fun _ => true, ws := fun _ => true,
    sendRaises := fun i => i == 0 }

/-! ## Claim theorems -/

/-- C1 (code bug): `disconnect()` during a backoff sleep does NOT stop
the reconnect. `_attempt_reconnect` tests `self.running` only before
`time.sleep`; when a concurrent `disconnect()` completes during the
sleep (leaving `running = False`, `ws = None`, `_ws_thread = None`),
the code still proceeds to `_start_ws_thread`, whose guard also passes,
so a new `WebSocketApp` is constructed and opened after `disconnect()`
has returned — contradicting the claim that the re-open step detects
`running = False` and aborts. -/
theorem reconnect_opens_new_transport_after_disconnect_during_backoff :
    (disconnect backoffState).running = false
    ∧ (disconnect backoffState).ws = false
    ∧ (attempt_reconnect backoffState
        { running := (disconnect backoffState).running,
          ws := (disconnect backoffState).ws,
          ws_thread_alive := false }).opened = true
    ∧ (attempt_reconnect backoffState
        { running := (disconnect backoffState).running,
          ws := (disconnect backoffState).ws,
          ws_thread_alive := false }).state.ws = true :=
  ⟨rfl, rfl, rfl, rfl⟩

/-- C2: after an auth-success message, the replay sends exactly one
subscribe message per channel with a non-empty parameter set, whose
args are the `"channel:param"` strings of that channel's registered
parameters in registry iteration order, and the replay leaves both
registries unchanged. -/
theorem auth_success_replays_one_message_per_nonempty_channel
    (env : HandlerEnv) (s : ClientState)
    (hc : s.is_connected = true) (hw : s.ws = true) :
    (on_message env s (WsData.authResult true)).sent
        = s.subscribed_channels.filterMap (fun cp =>
            if cp.2.isEmpty then none
            else some (WireMsg.subscribeMsg (subArgs cp.1 cp.2)))
    ∧ (on_message env s (WsData.authResult true)).state.subscribed_channels
        = s.subscribed_channels
    ∧ (on_message env s (WsData.authResult true)).state.handlers = s.handlers := by
  refine ⟨?_, rfl, rfl⟩
  show resubscribe_channels { s with is_authenticated := true } = _
  have he := resubscribe_msgs_eq { s with is_authenticated := true } hw hc
    s.subscribed_channels
  simpa [resubscribe_channels, hc] using he

/-- Witness for C2: a client subscribed to channel `liquidation` with
params `BTC`, `ETH` replays exactly one bundled subscribe message after
the post-reconnect auth success. -/
theorem auth_success_replay_witness :
    replayState.is_connected = true ∧ replayState.ws = true
    ∧ ((on_message okEnv replayState (WsData.authResult true)).sent
        = replayState.subscribed_channels.filterMap (fun cp =>
            if cp.2.isEmpty then none
            else some (WireMsg.subscribeMsg (subArgs cp.1 cp.2)))
      ∧ (on_message okEnv replayState (WsData.authResult true)).state.subscribed_channels
          = replayState.subscribed_channels
      ∧ (on_message okEnv replayState (WsData.authResult true)).state.handlers
          = replayState.handlers)
    ∧ (on_message okEnv replayState (WsData.authResult true)).sent
        = [WireMsg.subscribeMsg ["liquidation:BTC", "liquidation:ETH"]] :=
  ⟨rfl, rfl,
    auth_success_replays_one_message_per_nonempty_channel okEnv replayState rfl rfl,
    by decide⟩

/-- C6: on an auth-result message with `success = false` the client
records `is_authenticated = false`, leaves `is_connected` untouched,
sends nothing (no replay, no auth retry), and logs the failure. -/
theorem auth_failure_leaves_connected_sends_nothing
    (env : HandlerEnv) (s : ClientState) :
    (on_message env s (WsData.authResult false)).state
        = { s with is_authenticated := false }
    ∧ (on_message env s (WsData.authResult false)).state.is_connected
        = s.is_connected
    ∧ (on_message env s (WsData.authResult false)).sent = []
    ∧ (on_message env s (WsData.authResult false)).invocations = []
    ∧ (on_message env s (WsData.authResult false)).logs = [LogEvent.authFailed] :=
  ⟨rfl, rfl, rfl, rfl, rfl⟩

/-- C7: an unexpected close below the attempt cap increments the
counter and computes the backoff delay
`reconnect_interval * 2 ^ (attempt - 1)` with `attempt` the
post-increment counter value. -/
theorem backoff_delay_exponential (s : ClientState) (post : PostSleepEnv)
    (hrun : s.running = true)
    (hlt : s.reconnect_attempts < s.max_reconnect_attempts) :
    (attempt_reconnect s post).state.reconnect_attempts
        = s.reconnect_attempts + 1
    ∧ (attempt_reconnect s post).waited
        = some (s.reconnect_interval * 2 ^ ((s.reconnect_attempts + 1) - 1)) := by
  rw [attempt_reconnect_retry s post hrun hlt]
  exact ⟨rfl, by rw [Nat.add_sub_cancel]⟩

/-- Witness for C7 at the constructor defaults (interval 5): the first
retry waits `5 * 2 ^ 0` time-units and moves the counter to 1; at
counters 1,2,3,4 the delays are 10, 20, 40 and 80. -/
theorem backoff_delay_exponential_witness :
    (backoffState.running = true
      ∧ backoffState.reconnect_attempts < backoffState.max_reconnect_attempts
      ∧ ((attempt_reconnect backoffState quietSleep).state.reconnect_attempts
            = backoffState.reconnect_attempts + 1
        ∧ (attempt_reconnect backoffState quietSleep).waited
            = some (backoffState.reconnect_interval
                * 2 ^ ((backoffState.reconnect_attempts + 1) - 1))))
    ∧ (attempt_reconnect backoffState quietSleep).waited = some 5
    ∧ (attempt_reconnect { backoffState with reconnect_attempts := 1 } quietSleep).waited
        = some 10
    ∧ (attempt_reconnect { backoffState with reconnect_attempts := 2 } quietSleep).waited
        = some 20
    ∧ (attempt_reconnect { backoffState with reconnect_attempts := 3 } quietSleep).waited
        = some 40
    ∧ (attempt_reconnect { backoffState with reconnect_attempts := 4 } quietSleep).waited
        = some 80 :=
  ⟨⟨rfl, by decide, backoff_delay_exponential backoffState quietSleep rfl (by decide)⟩,
    by decide, by decide, by decide, by decide, by decide⟩

/-- C9 counterexample: with the transport raising on the very first
ping send (and the client staying running and connected), the send
error is logged — but inside `_send_message`, whose `except` swallows
it — and the heartbeat loop still performs its next iteration, sending
the next ping.  The claim that the loop performs no further iterations
after a transmission failure is therefore false. -/
theorem ping_send_error_loop_continues_counterexample :
    send_ping_loop failFirstPing 0 2
      = [([], [LogEvent.sendError]), ([WireMsg.pingMsg], [])] := by
  decide

/-- C9 (amended): a transmission error while sending a ping is caught
and logged inside `_send_message` and never reaches the heartbeat
loop's own exception handler; the loop's iterations are determined
solely by the `running` and `is_connected` flags, each iteration being
exactly one `_send_message` attempt (which logs a send error when the
transport raises). -/
theorem ping_loop_iterations_independent_of_send_errors
    (env : PingEnv) (fuel i : Nat)
    (h : ∀ j, j < fuel → env.running (i + j) = true ∧ env.connected (i + j) = true) :
    (send_ping_loop env i fuel).length = fuel
    ∧ send_ping_loop env i fuel
        = (List.range fuel).map (fun j =>
            send_message_now (env.ws (i + j)) (env.connected (i + j))
              (env.sendRaises (i + j)) WireMsg.pingMsg) := by
  have he := send_ping_loop_eq env fuel i h
  exact ⟨by rw [he]; simp, he⟩

/-- Witness for the amended C9: under a first-iteration send failure
the loop still runs all three iterations. -/
theorem ping_loop_iterations_witness :
    (∀ j, j < 3 → failFirstPing.running (0 + j) = true
        ∧ failFirstPing.connected (0 + j) = true)
    ∧ ((send_ping_loop failFirstPing 0 3).length = 3
      ∧ send_ping_loop failFirstPing 0 3
          = (List.range 3).map (fun j =>
              send_message_now (failFirstPing.ws (0 + j))
                (failFirstPing.connected (0 + j))
                (failFirstPing.sendRaises (0 + j)) WireMsg.pingMsg)) :=
  ⟨by decide,
    ping_loop_iterations_independent_of_send_errors failFirstPing 3 0 (by decide)⟩

/-- C3: `subscribe` is idempotent on the wire — for every client state,
the second of two identical calls (non-empty channel and params) sends
nothing, leaves the state exactly as the first call left it, and the
two calls together send at most one subscribe message. -/
theorem subscribe_idempotent_on_wire (s : ClientState) (c : String)
    (ps : List String) (hid : HandlerId) (hc : c ≠ "") (hp : ps ≠ []) :
    (subscribe (subscribe s c ps hid).1 c ps hid).1 = (subscribe s c ps hid).1
    ∧ (subscribe (subscribe s c ps hid).1 c ps hid).2 = []
    ∧ ((subscribe s c ps hid).2
        ++ (subscribe (subscribe s c ps hid).1 c ps hid).2).length ≤ 1 := by
  have hguard : ¬ (c = "" ∨ ps = []) := by
    intro h
    rcases h with h | h
    · exact hc h
    · exact hp h
  obtain ⟨reg, hfr, hall⟩ := subscribe_finds_params s c ps hid hguard
  obtain ⟨hl, hfh, hin⟩ := subscribe_finds_handler s c ps hid hguard
  have hnoop := subscribe_noop_of_registered (subscribe s c ps hid).1 c ps hid
    reg hl hfr hall hfh hin
  refine ⟨?_, ?_, ?_⟩
  · rw [hnoop]
  · rw [hnoop]
  · rw [hnoop]
    simpa using subscribe_sends_at_most_one s c ps hid

/-- Witness for C3 on a fresh client: the doubled call keeps the state
of the first call and adds no second wire message. -/
theorem subscribe_idempotent_witness :
    ("liquidation" : String) ≠ "" ∧ (["BTC"] : List String) ≠ []
    ∧ ((subscribe (subscribe (initState "key") "liquidation" ["BTC"] 1).1
          "liquidation" ["BTC"] 1).1
        = (subscribe (initState "key") "liquidation" ["BTC"] 1).1
      ∧ (subscribe (subscribe (initState "key") "liquidation" ["BTC"] 1).1
          "liquidation" ["BTC"] 1).2 = []
      ∧ ((subscribe (initState "key") "liquidation" ["BTC"] 1).2
          ++ (subscribe (subscribe (initState "key") "liquidation" ["BTC"] 1).1
              "liquidation" ["BTC"] 1).2).length ≤ 1) :=
  ⟨by decide, by decide,
    subscribe_idempotent_on_wire (initState "key") "liquidation" ["BTC"] 1
      (by decide) (by decide)⟩

/-- C5: the reconnect counter never exceeds the configured maximum, is
reset to 0 on every successful open, and once it has reached the
maximum at an unexpected close the client sets `running` to `false`,
opens nothing, and no later close produces an open; over any run of
consecutive unexpected closes the number of opens is bounded by the
remaining attempt budget. -/
theorem reconnect_counter_bounded_and_terminal
    (s : ClientState) (post : PostSleepEnv) (posts : List PostSleepEnv)
    (hinv : s.reconnect_attempts ≤ s.max_reconnect_attempts) :
    (attempt_reconnect s post).state.reconnect_attempts
        ≤ s.max_reconnect_attempts
    ∧ (on_open s).1.reconnect_attempts = 0
    ∧ (s.running = true → s.reconnect_attempts = s.max_reconnect_attempts →
        (attempt_reconnect s post).opened = false
        ∧ (attempt_reconnect s post).state.running = false
        ∧ (countOpens (attempt_reconnect s post).state posts).2 = 0)
    ∧ (countOpens s posts).2 + s.reconnect_attempts ≤ s.max_reconnect_attempts := by
  refine ⟨?_, rfl, ?_, countOpens_le posts s hinv⟩
  · by_cases hrun : s.running = true
    · by_cases hlt : s.reconnect_attempts < s.max_reconnect_attempts
      · rw [attempt_reconnect_retry s post hrun hlt]
        simpa using hlt
      · rw [attempt_reconnect_terminal s post hrun hlt]
        simpa using hinv
    · have hrun' : s.running = false := by
        revert hrun
        cases s.running <;> simp
      rw [attempt_reconnect_not_running s post hrun']
      exact hinv
  · intro hrun hmax
    have hge : ¬ s.reconnect_attempts < s.max_reconnect_attempts := by omega
    rw [attempt_reconnect_terminal s post hrun hge]
    exact ⟨rfl, rfl, countOpens_not_running posts _ rfl⟩

/-- Witness for C5: a running client whose counter has reached the
maximum stops (running becomes false), opens nothing, and two further
unexpected closes produce zero opens. -/
theorem reconnect_counter_bounded_witness :
    ({ backoffState with reconnect_attempts := 5 }.reconnect_attempts
        ≤ { backoffState with reconnect_attempts := 5 }.max_reconnect_attempts)
    ∧ ((attempt_reconnect { backoffState with reconnect_attempts := 5 }
          quietSleep).state.reconnect_attempts
        ≤ { backoffState with reconnect_attempts := 5 }.max_reconnect_attempts
      ∧ (on_open { backoffState with reconnect_attempts := 5 }).1.reconnect_attempts = 0
      ∧ ({ backoffState with reconnect_attempts := 5 }.running = true →
          { backoffState with reconnect_attempts := 5 }.reconnect_attempts
            = { backoffState with reconnect_attempts := 5 }.max_reconnect_attempts →
          (attempt_reconnect { backoffState with reconnect_attempts := 5 }
              quietSleep).opened = false
          ∧ (attempt_reconnect { backoffState with reconnect_attempts := 5 }
              quietSleep).state.running = false
          ∧ (countOpens (attempt_reconnect { backoffState with reconnect_attempts := 5 }
              quietSleep).state [quietSleep, quietSleep]).2 = 0)
      ∧ (countOpens { backoffState with reconnect_attempts := 5 }
            [quietSleep, quietSleep]).2
          + { backoffState with reconnect_attempts := 5 }.reconnect_attempts
          ≤ { backoffState with reconnect_attempts := 5 }.max_reconnect_attempts) :=
  ⟨by decide,
    reconnect_counter_bounded_and_terminal
      { backoffState with reconnect_attempts := 5 } quietSleep
      [quietSleep, quietSleep] (by decide)⟩

/-- C8: the dispatcher invokes every handler registered for the channel
of a decoded channel-data message, in registration order, with the
message's inner payload; a raising handler is logged without stopping
the remaining handlers, and the next message is still dispatched
normally. -/
theorem dispatcher_handler_isolation (env : HandlerEnv) (s : ClientState)
    (c : String) (d : Payload) (hs : List HandlerId) (ms : List WsData)
    (hreg : alistFind s.handlers c = some hs) :
    (on_message env s (WsData.channelData c d)).invocations
        = hs.map (fun h => (h, d))
    ∧ (on_message env s (WsData.channelData c d)).logs
        = hs.filterMap (fun h =>
            match env h d with
            | Except.ok _ => none
            | Except.error _ => some (LogEvent.handlerError c h))
    ∧ (on_message env s (WsData.channelData c d)).state = s
    ∧ (process_messages env s (WsData.channelData c d :: ms)).2
        = hs.map (fun h => (h, d)) ++ (process_messages env s ms).2 := by
  have hrh := run_handlers_spec env c d hs
  refine ⟨?_, ?_, ?_, ?_⟩
  · simp [on_message, hreg, hrh.1]
  · simp [on_message, hreg, hrh.2]
  · simp [on_message, hreg]
  · simp [process_messages, on_message, hreg, hrh.1]

/-- Witness for C8: handler 1 raises on the payload, handler 2 is still
invoked with the same payload, and the following message is dispatched
to both again. -/
theorem dispatcher_handler_isolation_witness :
    alistFind dispatchState.handlers "liquidation" = some [1, 2]
    ∧ ((on_message boomEnv dispatchState (WsData.channelData "liquidation" 5)).invocations
        = [1, 2].map (fun h => (h, (5 : Payload)))
      ∧ (on_message boomEnv dispatchState (WsData.channelData "liquidation" 5)).logs
          = [1, 2].filterMap (fun h =>
              match boomEnv h 5 with
              | Except.ok _ => none
              | Except.error _ => some (LogEvent.handlerError "liquidation" h))
      ∧ (on_message boomEnv dispatchState (WsData.channelData "liquidation" 5)).state
          = dispatchState
      ∧ (process_messages boomEnv dispatchState
            (WsData.channelData "liquidation" 5
              :: [WsData.channelData "liquidation" 6])).2
          = [1, 2].map (fun h => (h, (5 : Payload)))
            ++ (process_messages boomEnv dispatchState
                  [WsData.channelData "liquidation" 6]).2) :=
  ⟨rfl,
    dispatcher_handler_isolation boomEnv dispatchState "liquidation" 5 [1, 2]
      [WsData.channelData "liquidation" 6] rfl⟩

/-- C10: a `subscribe` call whose parameters are all already registered
for the channel sends nothing and leaves the parameter registry
unchanged, yet still appends a not-yet-registered handler to the
channel's handler list — handler registration is unconditional and
precedes the wire-delta computation. -/
theorem subscribe_existing_params_appends_handler_only
    (s : ClientState) (c : String) (ps : List String) (hid : HandlerId)
    (reg : List String)
    (hc : c ≠ "") (hp : ps ≠ [])
    (hreg : alistFind s.subscribed_channels c = some reg)
    (hall : ∀ p ∈ ps, p ∈ reg)
    (hnot : hid ∉ alistGetD s.handlers c []) :
    subscribe s c ps hid
      = ({ s with
             handlers := alistSet s.handlers c
               (alistGetD s.handlers c [] ++ [hid]) }, []) := by
  have hguard : ¬ (c = "" ∨ ps = []) := by
    intro h
    rcases h with h | h
    · exact hc h
    · exact hp h
  have hadd := addNewParams_of_subset reg ps hall
  cases hfh : alistFind s.handlers c with
  | some hl =>
      have hg : alistGetD s.handlers c [] = hl := by simp [alistGetD, hfh]
      rw [hg] at hnot
      simp [subscribe, hguard, alistMem, alistGetD, hreg, hfh, hnot, hadd,
            alistSet_of_find_eq _ _ _ hreg]
  | none =>
      simp [subscribe, hguard, alistMem, alistGetD, hreg, hfh, hadd,
            alistFind_set_self, alistSet_set, alistSet_of_find_eq _ _ _ hreg]

/-- Witness for C10: re-subscribing the already-registered param `BTC`
with a new handler 2 sends nothing, keeps the registry, and appends
handler 2 after handler 1. -/
theorem subscribe_existing_params_witness :
    ("liquidation" : String) ≠ "" ∧ (["BTC"] : List String) ≠ []
    ∧ alistFind replayState.subscribed_channels "liquidation" = some ["BTC", "ETH"]
    ∧ (∀ p ∈ (["BTC"] : List String), p ∈ (["BTC", "ETH"] : List String))
    ∧ (2 : HandlerId) ∉ alistGetD replayState.handlers "liquidation" []
    ∧ subscribe replayState "liquidation" ["BTC"] 2
        = ({ replayState with
               handlers := alistSet replayState.handlers "liquidation"
                 (alistGetD replayState.handlers "liquidation" [] ++ [2]) }, []) :=
  ⟨by decide, by decide, by decide, by decide, by decide,
    subscribe_existing_params_appends_handler_only replayState "liquidation"
      ["BTC"] 2 ["BTC", "ETH"] (by decide) (by decide) (by decide)
      (by decide) (by decide)⟩

/-- A subscribed, authenticated client used to exercise `unsubscribe`:
one registered parameter and one registered handler. -/
def unsubState : ClientState :=
  { initState "key" with
      ws := true, is_connected := true, is_authenticated := true, running := true,
      subscribed_channels := [("liquidation", ["BTC"])],
      handlers := [("liquidation", [7])] }

/-- A richer `unsubscribe` scenario: two channels, two parameters and
two handlers on the first channel. -/
def unsubRichState : ClientState :=
  { initState "key" with
      ws := true, is_connected := true, is_authenticated := true, running := true,
      subscribed_channels := [("liquidation", ["BTC", "ETH"]), ("trade", ["XRP"])],
      handlers := [("liquidation", [7, 8])] }

/-- C4 counterexample: `unsubscribe` on a registered channel with a
handler reference that is present in the channel's handler list, but
with requested params disjoint from the registered ones, returns at
the `params_to_unsubscribe` early-exit — before the handler-removal
block — so the given handler is NOT removed, contrary to the claim. -/
theorem unsubscribe_disjoint_request_keeps_handler_counterexample :
    (7 : HandlerId) ∈ alistGetD unsubState.handlers "liquidation" []
    ∧ alistMem unsubState.subscribed_channels "liquidation" = true
    ∧ unsubscribe unsubState "liquidation" ["ETH"] (some 7) = (unsubState, [])
    ∧ (7 : HandlerId) ∈ alistGetD
        (unsubscribe unsubState "liquidation" ["ETH"] (some 7)).1.handlers
        "liquidation" [] :=
  ⟨by decide, by decide, by decide, by decide⟩

/-- C4 (amended): on a registered channel, `unsubscribe` removes
exactly the intersection of the requested and registered parameters
(deleting the channel entry when it empties) and leaves every other
channel untouched; when that intersection is non-empty and a given
handler reference is present, exactly that handler is removed (other
handlers and channels stay intact), and a handler that is absent is
left alone — but when the intersection is empty the call is a complete
no-op and the given handler is NOT removed even if present. -/
theorem unsubscribe_removes_exactly_intersection
    (s : ClientState) (c : String) (ps : List String) (hid : HandlerId)
    (reg : List String)
    (hreg : alistFind s.subscribed_channels c = some reg)
    (hndreg : reg.Nodup) (hndps : ps.Nodup)
    (hndkeys : (alistKeys s.subscribed_channels).Nodup) :
    (ps.filter (fun x => decide (x ∈ reg)) = [] →
        unsubscribe s c ps (some hid) = (s, []))
    ∧ (ps.filter (fun x => decide (x ∈ reg)) ≠ [] →
        (reg.filter (fun x => decide (x ∉ ps)) = [] →
            alistFind (unsubscribe s c ps (some hid)).1.subscribed_channels c
              = none)
        ∧ (reg.filter (fun x => decide (x ∉ ps)) ≠ [] →
            alistFind (unsubscribe s c ps (some hid)).1.subscribed_channels c
              = some (reg.filter (fun x => decide (x ∉ ps))))
        ∧ (∀ c', c' ≠ c →
            alistFind (unsubscribe s c ps (some hid)).1.subscribed_channels c'
              = alistFind s.subscribed_channels c')
        ∧ (∀ c', c' ≠ c →
            alistFind (unsubscribe s c ps (some hid)).1.handlers c'
              = alistFind s.handlers c')
        ∧ (∀ hl, alistFind s.handlers c = some hl → hid ∈ hl →
            alistFind (unsubscribe s c ps (some hid)).1.handlers c
              = some (hl.erase hid))
        ∧ (hid ∉ alistGetD s.handlers c [] →
            (unsubscribe s c ps (some hid)).1.handlers = s.handlers)) := by
  have hmem : alistMem s.subscribed_channels c = true := by simp [alistMem, hreg]
  have hg : alistGetD s.subscribed_channels c [] = reg := by simp [alistGetD, hreg]
  have hfst := splitParams_fst_eq_filter ps reg hndreg hndps
  have hsnd := splitParams_snd_eq_filter ps reg hndreg
  constructor
  · intro hempty
    simp [unsubscribe, hmem, hg, hfst, hempty]
  · intro hne
    have hr1 : ¬ (splitParams reg ps).1 = [] := by rw [hfst]; exact hne
    refine ⟨?_, ?_, ?_, ?_, ?_, ?_⟩
    · intro hkf
      have hkept : (splitParams reg ps).2 = [] := by rw [hsnd]; exact hkf
      simp [unsubscribe, hmem, hg, hr1, hkept,
            alistFind_erase_self _ _ hndkeys]
    · intro hkf
      have hkept : ¬ (splitParams reg ps).2 = [] := by rw [hsnd]; exact hkf
      have hnall : ¬ ∀ a ∈ reg, a ∈ ps := by
        intro hall
        exact hkf (by simpa using hall)
      simp [unsubscribe, hmem, hg, hr1, hkept, hsnd, hnall, alistFind_set_self]
    · intro c' hc'
      by_cases hkept : (splitParams reg ps).2 = []
      · simp [unsubscribe, hmem, hg, hr1, hkept,
              alistFind_erase_ne _ _ _ hc']
      · simp [unsubscribe, hmem, hg, hr1, hkept,
              alistFind_set_ne _ _ _ _ hc']
    · intro c' hc'
      by_cases hmh : alistMem s.handlers c = true
      · by_cases hin : hid ∈ alistGetD s.handlers c []
        · simp [unsubscribe, hmem, hg, hr1, hmh, hin,
                alistFind_set_ne _ _ _ _ hc']
        · simp [unsubscribe, hmem, hg, hr1, hmh, hin]
      · simp [unsubscribe, hmem, hg, hr1, hmh]
    · intro hl hlh hinh
      have hmh : alistMem s.handlers c = true := by simp [alistMem, hlh]
      have hgh : alistGetD s.handlers c [] = hl := by simp [alistGetD, hlh]
      simp [unsubscribe, hmem, hg, hr1, hmh, hgh, hinh, alistFind_set_self]
    · intro hninh
      by_cases hmh : alistMem s.handlers c = true
      · simp [unsubscribe, hmem, hg, hr1, hmh, hninh]
      · simp [unsubscribe, hmem, hg, hr1, hmh]

/-- Witness for the amended C4: unsubscribing `ETH` plus an unknown
param with handler 7 removes exactly `ETH` (keeping `BTC`), removes
exactly handler 7 (keeping 8), and leaves the `trade` channel alone. -/
theorem unsubscribe_removes_exactly_intersection_witness :
    (alistFind unsubRichState.subscribed_channels "liquidation"
        = some ["BTC", "ETH"]
      ∧ (["BTC", "ETH"] : List String).Nodup
      ∧ (["ETH", "XRP"] : List String).Nodup
      ∧ (alistKeys unsubRichState.subscribed_channels).Nodup)
    ∧ ((["ETH", "XRP"].filter
          (fun x => decide (x ∈ (["BTC", "ETH"] : List String))) = [] →
        unsubscribe unsubRichState "liquidation" ["ETH", "XRP"] (some 7)
          = (unsubRichState, []))
      ∧ (["ETH", "XRP"].filter
          (fun x => decide (x ∈ (["BTC", "ETH"] : List String))) ≠ [] →
        ((["BTC", "ETH"] : List String).filter
            (fun x => decide (x ∉ (["ETH", "XRP"] : List String))) = [] →
          alistFind (unsubscribe unsubRichState "liquidation" ["ETH", "XRP"]
              (some 7)).1.subscribed_channels "liquidation" = none)
        ∧ ((["BTC", "ETH"] : List String).filter
            (fun x => decide (x ∉ (["ETH", "XRP"] : List String))) ≠ [] →
          alistFind (unsubscribe unsubRichState "liquidation" ["ETH", "XRP"]
              (some 7)).1.subscribed_channels "liquidation"
            = some ((["BTC", "ETH"] : List String).filter
                (fun x => decide (x ∉ (["ETH", "XRP"] : List String)))))
        ∧ (∀ c', c' ≠ "liquidation" →
            alistFind (unsubscribe unsubRichState "liquidation" ["ETH", "XRP"]
                (some 7)).1.subscribed_channels c'
              = alistFind unsubRichState.subscribed_channels c')
        ∧ (∀ c', c' ≠ "liquidation" →
            alistFind (unsubscribe unsubRichState "liquidation" ["ETH", "XRP"]
                (some 7)).1.handlers c'
              = alistFind unsubRichState.handlers c')
        ∧ (∀ hl, alistFind unsubRichState.handlers "liquidation" = some hl →
            7 ∈ hl →
            alistFind (unsubscribe unsubRichState "liquidation" ["ETH", "XRP"]
                (some 7)).1.handlers "liquidation"
              = some (hl.erase 7))
        ∧ ((7 : HandlerId) ∉ alistGetD unsubRichState.handlers "liquidation" [] →
            (unsubscribe unsubRichState "liquidation" ["ETH", "XRP"]
                (some 7)).1.handlers = unsubRichState.handlers))) :=
  ⟨⟨by decide, by decide, by decide, by decide⟩,
    unsubscribe_removes_exactly_intersection unsubRichState "liquidation"
      ["ETH", "XRP"] 7 ["BTC", "ETH"] (by decide) (by decide) (by decide)
      (by decide)⟩

end CoinglassWS
